import Mathlib

/-!
Shallow embedding of the AgentHub core (agent registry, knowledge base
manager, travel pipeline) of this repository, with theorems settling the
specified claims.

Conventions of the embedding:
* `Time` is an abstract totally ordered instant (a `Nat`, measured in
  minutes so that Python's `timedelta(minutes=k)` is `+ k`); every Python
  call to `datetime.utcnow()` becomes an explicit `now : Time` argument.
* `UUID` is an abstract identifier (a `Nat`).
* Python dicts keyed by identifier become insertion-ordered lists; the
  dict `values()` iteration order is the list order.
* Python exceptions become explicit error values (`Option`/`Except`).
-/

set_option linter.unusedVariables false

abbrev UUID := Nat

abbrev Time := Nat

/-! ## Semantic version tags

`KnowledgeBase.create_version` stores version tags as strings of the form
`"v{major}.{minor}.{micro}"`, strips the leading `v`s with `lstrip('v')`,
parses with `packaging.version.parse` and re-renders with the micro
(patch) component incremented.  We embed the decimal rendering of natural
numbers and the parsing of dotted decimal triples directly, so the string
round trip is proved rather than assumed. -/

/-- Decimal digits of `n`, little-endian, with explicit structural fuel
(`natDecDigitsAux fuel n` is correct whenever `n ≤ fuel`). -/
def natDecDigitsAux : Nat → Nat → List Nat
  | 0, _ => []
  | _, 0 => []
  | fuel + 1, n + 1 => (n + 1) % 10 :: natDecDigitsAux fuel ((n + 1) / 10)

/-- Decimal digits of `n`, little-endian; `[]` for `0`. -/
def natDecDigits (n : Nat) : List Nat := natDecDigitsAux n n

/-- Value of a little-endian digit list. -/
def natOfDecDigits (ds : List Nat) : Nat := ds.foldr (fun d r => d + 10 * r) 0

theorem natDecDigitsAux_spec (fuel : Nat) : ∀ n, n ≤ fuel →
    natOfDecDigits (natDecDigitsAux fuel n) = n := by
  induction fuel with
  | zero => intro n hn; interval_cases n; rfl
  | succ fuel ih =>
    intro n hn
    match n with
    | 0 => rfl
    | m + 1 =>
      have hdiv : (m + 1) / 10 ≤ fuel := by
        have h1 : (m + 1) / 10 < m + 1 := Nat.div_lt_self (Nat.succ_pos m) (by omega)
        omega
      have := ih ((m + 1) / 10) hdiv
      simp only [natDecDigitsAux, natOfDecDigits, List.foldr] at this ⊢
      have hmod := Nat.mod_add_div (m + 1) 10
      omega

theorem natOfDecDigits_natDecDigits (n : Nat) :
    natOfDecDigits (natDecDigits n) = n :=
  natDecDigitsAux_spec n n (Nat.le_refl n)

theorem natDecDigitsAux_lt_ten (fuel : Nat) : ∀ n, ∀ d ∈ natDecDigitsAux fuel n, d < 10 := by
  induction fuel with
  | zero => intro n d hd; simp [natDecDigitsAux] at hd
  | succ fuel ih =>
    intro n d hd
    match n with
    | 0 => simp [natDecDigitsAux] at hd
    | m + 1 =>
      simp only [natDecDigitsAux, List.mem_cons] at hd
      rcases hd with h | h
      · omega
      · exact ih _ _ h

theorem natDecDigits_ne_nil {n : Nat} (hn : n ≠ 0) : natDecDigits n ≠ [] := by
  match n, hn with
  | m + 1, _ => simp [natDecDigits, natDecDigitsAux]

/-- The character for a decimal digit (`0 ↦ '0'`, …, `9 ↦ '9'`). -/
def decDigitChar (d : Nat) : Char := Char.ofNat (48 + d)

/-- Decimal value of a digit character. -/
def charDecVal (c : Char) : Nat := c.toNat - 48

/-- Is `c` one of `'0'`–`'9'`? -/
def isDecDigit (c : Char) : Bool := 48 ≤ c.toNat && c.toNat ≤ 57

theorem decDigitChar_spec {d : Nat} (hd : d < 10) :
    charDecVal (decDigitChar d) = d ∧ isDecDigit (decDigitChar d) = true ∧
      decDigitChar d ≠ '.' ∧ decDigitChar d ≠ 'v' := by
  interval_cases d <;> exact ⟨rfl, rfl, by decide, by decide⟩

/-- Decimal rendering of a natural number as characters (Python `str(n)`). -/
def natToChars (n : Nat) : List Char :=
  if n = 0 then ['0'] else ((natDecDigits n).map decDigitChar).reverse

theorem natToChars_ne_nil (n : Nat) : natToChars n ≠ [] := by
  unfold natToChars
  split
  · simp
  · next hn =>
    have := natDecDigits_ne_nil hn
    simp [this]

theorem natToChars_all_digits (n : Nat) : ∀ c ∈ natToChars n, isDecDigit c = true := by
  intro c hc
  unfold natToChars at hc
  split at hc
  · simp at hc; subst hc; decide
  · simp only [List.mem_reverse, List.mem_map] at hc
    obtain ⟨d, hd, rfl⟩ := hc
    exact (decDigitChar_spec (natDecDigitsAux_lt_ten _ _ _ hd)).2.1

theorem isDecDigit_not_dot {c : Char} (hc : isDecDigit c = true) : c ≠ '.' := by
  intro h; subst h; simp [isDecDigit] at hc

theorem isDecDigit_not_v {c : Char} (hc : isDecDigit c = true) : c ≠ 'v' := by
  intro h; subst h; simp [isDecDigit] at hc

/-- Parse a nonempty all-digit character list as a natural number
(big-endian); `none` otherwise.  Models `packaging`'s numeric component
parsing. -/
def parseDecNat (cs : List Char) : Option Nat :=
  if cs ≠ [] ∧ cs.all isDecDigit then
    some (cs.foldl (fun acc c => acc * 10 + charDecVal c) 0)
  else none

theorem foldl_digits_eq (ds : List Nat) (hds : ∀ d ∈ ds, d < 10) (acc : Nat) :
    ((ds.map decDigitChar).reverse.foldl (fun a c => a * 10 + charDecVal c) acc) =
      acc * 10 ^ ds.length + natOfDecDigits ds := by
  induction ds generalizing acc with
  | nil => simp [natOfDecDigits]
  | cons d ds ih =>
    have hd : d < 10 := hds d (List.mem_cons_self d ds)
    have hds' : ∀ e ∈ ds, e < 10 := fun e he => hds e (List.mem_cons_of_mem d he)
    simp only [List.map_cons, List.reverse_cons, List.foldl_append, List.foldl_cons,
      List.foldl_nil, ih hds']
    rw [(decDigitChar_spec hd).1]
    simp only [natOfDecDigits, List.foldr_cons, List.length_cons]
    rw [pow_succ]
    ring

theorem parseDecNat_natToChars (n : Nat) : parseDecNat (natToChars n) = some n := by
  unfold parseDecNat
  rw [if_pos ⟨natToChars_ne_nil n, List.all_eq_true.mpr (natToChars_all_digits n)⟩]
  unfold natToChars
  split
  · next h => subst h; rfl
  · next h =>
    rw [foldl_digits_eq (natDecDigits n) (natDecDigitsAux_lt_ten n n) 0]
    simp [natOfDecDigits_natDecDigits]

/-- Split a character list at `'.'` separators (each separator consumed). -/
def splitDots (cs : List Char) : List (List Char) :=
  cs.foldr
    (fun c acc =>
      if c = '.' then [] :: acc
      else match acc with
        | [] => [[c]]
        | g :: gs => (c :: g) :: gs)
    [[]]

theorem splitDots_ne_nil (cs : List Char) : splitDots cs ≠ [] := by
  induction cs with
  | nil => simp [splitDots]
  | cons c cs ih =>
    simp only [splitDots, List.foldr_cons] at *
    split
    · simp
    · split <;> simp_all

theorem splitDots_cons (c : Char) (cs : List Char) :
    splitDots (c :: cs) =
      if c = '.' then [] :: splitDots cs
      else
        match splitDots cs with
        | [] => [[c]]
        | g :: gs => (c :: g) :: gs := rfl

theorem splitDots_nodot {cs : List Char} (h : ∀ c ∈ cs, c ≠ '.') :
    splitDots cs = [cs] := by
  induction cs with
  | nil => rfl
  | cons c cs ih =>
    have hc : c ≠ '.' := h c (List.mem_cons_self c cs)
    rw [splitDots_cons, if_neg hc, ih (fun d hd => h d (List.mem_cons_of_mem c hd))]

theorem splitDots_append_dot {l : List Char} (h : ∀ c ∈ l, c ≠ '.') (rest : List Char) :
    splitDots (l ++ '.' :: rest) = l :: splitDots rest := by
  induction l with
  | nil => simp [splitDots]
  | cons c l ih =>
    have hc : c ≠ '.' := h c (List.mem_cons_self c l)
    have ih' := ih (fun d hd => h d (List.mem_cons_of_mem c hd))
    simp only [List.cons_append]
    rw [splitDots_cons, if_neg hc, ih']

/-- Render a semantic version tag `"v{a}.{b}.{c}"` (the f-string in
`KnowledgeBase.create_version`). -/
def renderTag (a b c : Nat) : String :=
  String.mk ('v' :: (natToChars a ++ '.' :: (natToChars b ++ '.' :: natToChars c)))

/-- Parse a version tag: strip all leading `'v'`s (Python `lstrip('v')`),
split the remainder on `'.'` and require exactly three numeric
components.  Models `packaging.version.parse` restricted to the
`major.minor.micro` shape this repository produces; other inputs are
rejected (`none`), standing for the parse exception. -/
def parseTag (s : String) : Option (Nat × Nat × Nat) :=
  match splitDots (s.toList.dropWhile (fun ch => ch = 'v')) with
  | [x, y, z] =>
    match parseDecNat x, parseDecNat y, parseDecNat z with
    | some a, some b, some c => some (a, b, c)
    | _, _, _ => none
  | _ => none

theorem parseTag_renderTag (a b c : Nat) : parseTag (renderTag a b c) = some (a, b, c) := by
  unfold parseTag renderTag
  have hdrop :
      (('v' :: (natToChars a ++ '.' :: (natToChars b ++ '.' :: natToChars c))).dropWhile
          (fun ch => ch = 'v')) =
        natToChars a ++ '.' :: (natToChars b ++ '.' :: natToChars c) := by
    rw [List.dropWhile_cons_of_pos (by simp)]
    rcases hA : natToChars a with _ | ⟨c0, cs0⟩
    · exact absurd hA (natToChars_ne_nil a)
    · have hdig : isDecDigit c0 = true := by
        apply natToChars_all_digits a; rw [hA]; exact List.mem_cons_self _ _
      rw [List.cons_append, List.dropWhile_cons_of_neg]
      simp only [decide_eq_true_eq]
      exact isDecDigit_not_v hdig
  have hlist : (String.mk
      ('v' :: (natToChars a ++ '.' :: (natToChars b ++ '.' :: natToChars c)))).toList =
      'v' :: (natToChars a ++ '.' :: (natToChars b ++ '.' :: natToChars c)) := rfl
  rw [hlist, hdrop]
  have hA : ∀ ch ∈ natToChars a, ch ≠ '.' :=
    fun ch hch => isDecDigit_not_dot (natToChars_all_digits a ch hch)
  have hB : ∀ ch ∈ natToChars b, ch ≠ '.' :=
    fun ch hch => isDecDigit_not_dot (natToChars_all_digits b ch hch)
  have hC : ∀ ch ∈ natToChars c, ch ≠ '.' :=
    fun ch hch => isDecDigit_not_dot (natToChars_all_digits c ch hch)
  rw [splitDots_append_dot hA, splitDots_append_dot hB, splitDots_nodot hC]
  simp [parseDecNat_natToChars]

/-- The tag produced from a current tag parsing as `(a, b, c)`:
patch (micro) component incremented by one. -/
def bumpPatch (s : String) : Option String :=
  (parseTag s).map (fun t => renderTag t.1 t.2.1 (t.2.2 + 1))

/-! ## Knowledge models (src/backend/onyx/agents/knowledge/models.py) -/

/-- `KnowledgeSourceType` enum. -/
inductive KnowledgeSourceType
  | notion | slack | google_drive | confluence | github | web_scraper | custom
deriving DecidableEq, Repr

/-- `KnowledgeStatus` enum. -/
inductive KnowledgeStatus
  | active | inactive | syncing | error
deriving DecidableEq, Repr

/-- Abstract model of `datetime.isoformat()` on an instant. -/
def isoFormat (t : Time) : String := toString t

/-- Abstract model of the external primitive
`hashlib.sha256(s.encode()).hexdigest()`: only the dependence of the
digest on its input string matters to the claims, so the digest is
modelled as an injective encoding of the input. -/
def sha256_hexdigest (s : String) : String := "sha256<" ++ s ++ ">"

/-- The checksum preimage built in `KnowledgeBase.create_version`:
`f"{document_count}:{total_size_bytes}:{datetime.utcnow().isoformat()}"`. -/
def versionContentString (document_count total_size_bytes : Nat) (now : Time) : String :=
  toString document_count ++ ":" ++ toString total_size_bytes ++ ":" ++ isoFormat now

/-- `KnowledgeVersion` pydantic model. -/
structure KnowledgeVersion where
  version : String
  created_at : Time
  document_count : Nat := 0
  total_size_bytes : Nat := 0
  metadata : List (String × String) := []
  checksum : Option String := none
deriving DecidableEq, Repr

/-- `ConnectorConfig` pydantic model (the opaque `config` map is kept as
an association list). -/
structure ConnectorConfig where
  connector_id : UUID
  connector_type : KnowledgeSourceType
  name : String
  enabled : Bool := true
  config : List (String × String) := []
  auto_sync : Bool := true
  sync_interval_minutes : Nat := 60
  last_sync_at : Option Time := none
  next_sync_at : Option Time := none
  total_syncs : Nat := 0
  failed_syncs : Nat := 0
  last_error : Option String := none
deriving DecidableEq, Repr

/-- `KnowledgeBase` pydantic model. -/
structure KnowledgeBase where
  kb_id : UUID
  name : String
  description : String := ""
  status : KnowledgeStatus := .active
  enabled : Bool := true
  current_version : String := "v1.0.0"
  versions : List KnowledgeVersion := []
  connectors : List ConnectorConfig := []
  agent_keys : List String := []
  created_at : Time
  updated_at : Time
  created_by : Option String := none
  query_count : Nat := 0
  last_queried_at : Option Time := none
deriving DecidableEq, Repr

/-- `KnowledgeBaseUsageMetrics` pydantic model. -/
structure KnowledgeBaseUsageMetrics where
  kb_id : UUID
  period_start : Time
  period_end : Time
  total_queries : Nat := 0
  successful_queries : Nat := 0
  failed_queries : Nat := 0
  avg_query_latency_ms : Nat := 0
  total_syncs : Nat := 0
  successful_syncs : Nat := 0
  failed_syncs : Nat := 0
  documents_added : Nat := 0
  documents_updated : Nat := 0
  documents_deleted : Nat := 0
  bytes_processed : Nat := 0
  agents_using : List String := []
deriving DecidableEq, Repr

/-- `KnowledgeBase.add_connector`. -/
def KnowledgeBase.add_connector (kb : KnowledgeBase) (connector : ConnectorConfig)
    (now : Time) : KnowledgeBase :=
  { kb with connectors := kb.connectors ++ [connector], updated_at := now }

/-- `KnowledgeBase.create_version`: parse the current tag (strip leading
`v`s), bump the micro/patch component, compute the checksum over
`(document_count, total_size_bytes, now)`, append the new version and
point `current_version` at it.  `none` models the exception Python's
`packaging.version.parse` would raise on an unparsable current tag. -/
def KnowledgeBase.create_version (kb : KnowledgeBase)
    (document_count total_size_bytes : Nat) (metadata : List (String × String))
    (now : Time) : Option (KnowledgeVersion × KnowledgeBase) :=
  match parseTag kb.current_version with
  | none => none
  | some (a, b, c) =>
    let new_version_num := renderTag a b (c + 1)
    let checksum := sha256_hexdigest (versionContentString document_count total_size_bytes now)
    let new_version : KnowledgeVersion :=
      { version := new_version_num
        created_at := now
        document_count := document_count
        total_size_bytes := total_size_bytes
        metadata := metadata
        checksum := some checksum }
    some (new_version,
      { kb with
          versions := kb.versions ++ [new_version]
          current_version := new_version_num
          updated_at := now })

/-- `KnowledgeBase.rollback_version`: set `current_version` to the target
tag iff some entry of `versions` carries it; the history itself is never
touched. -/
def KnowledgeBase.rollback_version (kb : KnowledgeBase) (target_version : String)
    (now : Time) : Bool × KnowledgeBase :=
  if kb.versions.any (fun v => v.version = target_version) then
    (true, { kb with current_version := target_version, updated_at := now })
  else
    (false, kb)

/-- `KnowledgeBase.enable`. -/
def KnowledgeBase.enable (kb : KnowledgeBase) (now : Time) : KnowledgeBase :=
  { kb with enabled := true, status := .active, updated_at := now }

/-- `KnowledgeBase.disable`. -/
def KnowledgeBase.disable (kb : KnowledgeBase) (now : Time) : KnowledgeBase :=
  { kb with enabled := false, status := .inactive, updated_at := now }

/-- `KnowledgeBase.get_active_connectors`. -/
def KnowledgeBase.get_active_connectors (kb : KnowledgeBase) : List ConnectorConfig :=
  kb.connectors.filter (fun c => c.enabled)

/-- `KnowledgeBase.record_query`. -/
def KnowledgeBase.record_query (kb : KnowledgeBase) (now : Time) : KnowledgeBase :=
  { kb with query_count := kb.query_count + 1, last_queried_at := some now }

/-! ## Knowledge Base Manager (src/backend/onyx/agents/knowledge/manager.py)

The manager's `_knowledge_bases : dict[UUID, KnowledgeBase]` is only ever
written at `create_knowledge_base`, with key `kb.kb_id`, so it is embedded
as the insertion-ordered list of its values; lookup finds the first entry
with the given `kb_id`, and mutation of a looked-up object becomes an
update of that entry in place. -/

/-- First knowledge base with the given id (dict lookup). -/
def lookupKB (kbs : List KnowledgeBase) (kb_id : UUID) : Option KnowledgeBase :=
  kbs.find? (fun kb => kb.kb_id = kb_id)

/-- Replace the first knowledge base with the given id by `f` of it
(mutation of the object obtained from the dict). -/
def updateFirstKB (kbs : List KnowledgeBase) (kb_id : UUID)
    (f : KnowledgeBase → KnowledgeBase) : List KnowledgeBase :=
  match kbs with
  | [] => []
  | kb :: rest =>
    if kb.kb_id = kb_id then f kb :: rest else kb :: updateFirstKB rest kb_id f

/-- `KnowledgeBaseManager` state. -/
structure KnowledgeBaseManager where
  knowledge_bases : List KnowledgeBase := []
  metrics : List (UUID × List KnowledgeBaseUsageMetrics) := []
deriving DecidableEq, Repr

/-- `KnowledgeBaseManager.get_knowledge_base`. -/
def KnowledgeBaseManager.get_knowledge_base (m : KnowledgeBaseManager)
    (kb_id : UUID) : Option KnowledgeBase :=
  lookupKB m.knowledge_bases kb_id

/-- `KnowledgeBaseManager.create_knowledge_base`: build the entity with
model defaults, seed the initial version via `create_version(0, 0,
metadata={"initial": True})`, and store it.  The fresh `uuid4` identifier
and the `utcnow` instants are explicit arguments.  `none` models the
(unreachable) parse exception of the seeding `create_version`. -/
def KnowledgeBaseManager.create_knowledge_base (m : KnowledgeBaseManager)
    (name : String) (description : String := "") (agent_keys : List String := [])
    (created_by : Option String := none) (kb_id : UUID := 0) (now : Time := 0) :
    Option (KnowledgeBase × KnowledgeBaseManager) :=
  let kb0 : KnowledgeBase :=
    { kb_id := kb_id
      name := name
      description := description
      agent_keys := agent_keys
      created_by := created_by
      created_at := now
      updated_at := now }
  match kb0.create_version 0 0 [("initial", "true")] now with
  | none => none
  | some (_, kb) =>
    some (kb, { m with knowledge_bases := m.knowledge_bases ++ [kb] })

/-- `KnowledgeBaseManager.rollback_version`: `false` on a missing id,
otherwise delegate to the entity. -/
def KnowledgeBaseManager.rollback_version (m : KnowledgeBaseManager)
    (kb_id : UUID) (target_version : String) (now : Time) :
    Bool × KnowledgeBaseManager :=
  match m.get_knowledge_base kb_id with
  | none => (false, m)
  | some kb =>
    ((kb.rollback_version target_version now).1,
      { m with
          knowledge_bases :=
            updateFirstKB m.knowledge_bases kb_id
              (fun kb => (kb.rollback_version target_version now).2) })

/-- `KnowledgeBaseManager.add_connector` (fresh `uuid4` and `utcnow`
explicit). -/
def KnowledgeBaseManager.add_connector (m : KnowledgeBaseManager) (kb_id : UUID)
    (connector_type : KnowledgeSourceType) (name : String)
    (config : List (String × String)) (auto_sync : Bool := true)
    (sync_interval_minutes : Nat := 60) (connector_id : UUID := 0) (now : Time := 0) :
    Option ConnectorConfig × KnowledgeBaseManager :=
  match m.get_knowledge_base kb_id with
  | none => (none, m)
  | some _ =>
    let connector : ConnectorConfig :=
      { connector_id := connector_id
        connector_type := connector_type
        name := name
        config := config
        auto_sync := auto_sync
        sync_interval_minutes := sync_interval_minutes
        next_sync_at := if auto_sync then some (now + sync_interval_minutes) else none }
    (some connector,
      { m with
          knowledge_bases :=
            updateFirstKB m.knowledge_bases kb_id (fun kb => kb.add_connector connector now) })

/-- The eligibility test of `trigger_sync`: the named connector when
`connector_id` is given (and enabled), otherwise every enabled connector
(`get_active_connectors`). -/
def syncEligible (connector_id : Option UUID) (c : ConnectorConfig) : Bool :=
  match connector_id with
  | some cid => c.connector_id = cid && c.enabled
  | none => c.enabled

/-- The connector bookkeeping done on each synced connector inside
`trigger_sync`: stamp `last_sync_at`, bump `total_syncs`, and recompute
`next_sync_at` for auto-sync connectors. -/
def syncConnectorUpdate (now : Time) (c : ConnectorConfig) : ConnectorConfig :=
  { c with
      last_sync_at := some now
      total_syncs := c.total_syncs + 1
      next_sync_at :=
        if c.auto_sync then some (now + c.sync_interval_minutes) else c.next_sync_at }

/-- `KnowledgeBaseManager.trigger_sync`, following the source's control
flow: status is set to `syncing`, the eligible connectors are collected,
and either nothing is eligible (status back to `active`, `False`) or each
eligible connector object is updated in place, status returns to `active`,
`updated_at` is stamped and `True` is returned. -/
def KnowledgeBaseManager.trigger_sync (m : KnowledgeBaseManager) (kb_id : UUID)
    (connector_id : Option UUID) (now : Time) : Bool × KnowledgeBaseManager :=
  match m.get_knowledge_base kb_id with
  | none => (false, m)
  | some kb =>
    let kb1 := { kb with status := KnowledgeStatus.syncing }
    let connectors_to_sync := kb1.connectors.filter (syncEligible connector_id)
    if connectors_to_sync.isEmpty then
      (false,
        { m with
            knowledge_bases :=
              updateFirstKB m.knowledge_bases kb_id
                (fun _ => { kb1 with status := KnowledgeStatus.active }) })
    else
      (true,
        { m with
            knowledge_bases :=
              updateFirstKB m.knowledge_bases kb_id
                (fun _ =>
                  { kb1 with
                      connectors :=
                        kb1.connectors.map
                          (fun c =>
                            if syncEligible connector_id c then syncConnectorUpdate now c
                            else c)
                      status := KnowledgeStatus.active
                      updated_at := now }) })

/-- `KnowledgeBaseManager.get_connectors_due_for_sync`: over all enabled
knowledge bases' enabled connectors, those with `auto_sync` and a set
`next_sync_at` that is `<= now`. -/
def KnowledgeBaseManager.get_connectors_due_for_sync (m : KnowledgeBaseManager)
    (now : Time) : List (UUID × UUID) :=
  m.knowledge_bases.flatMap
    (fun kb =>
      if kb.enabled then
        kb.get_active_connectors.flatMap
          (fun c =>
            if c.auto_sync &&
                (match c.next_sync_at with
                 | some t => decide (t ≤ now)
                 | none => false) then
              [(kb.kb_id, c.connector_id)]
            else [])
      else [])

/-- `KnowledgeBaseManager.record_query`: silently ignore a missing id,
otherwise bump the entity's query counter.  The `success` and
`latency_ms` arguments are accepted and discarded — the source's metrics
update at this point is an unimplemented `TODO`. -/
def KnowledgeBaseManager.record_query (m : KnowledgeBaseManager) (kb_id : UUID)
    (success : Bool) (latency_ms : Nat) (now : Time) : KnowledgeBaseManager :=
  match m.get_knowledge_base kb_id with
  | none => m
  | some _ =>
    { m with
        knowledge_bases :=
          updateFirstKB m.knowledge_bases kb_id (fun kb => kb.record_query now) }

/-- `KnowledgeBaseManager.get_metrics`: `none` when the metrics store has
no (nonempty) list for the id; otherwise the last snapshot surviving the
optional period filters, `none` if the filters leave nothing. -/
def KnowledgeBaseManager.get_metrics (m : KnowledgeBaseManager) (kb_id : UUID)
    (period_start : Option Time := none) (period_end : Option Time := none) :
    Option KnowledgeBaseUsageMetrics :=
  match m.metrics.find? (fun e => e.1 = kb_id) with
  | none => none
  | some (_, ms) =>
    if ms.isEmpty then none
    else
      let ms1 :=
        match period_start with
        | some ps => ms.filter (fun mm : KnowledgeBaseUsageMetrics => ps ≤ mm.period_start)
        | none => ms
      let ms2 :=
        match period_end with
        | some pe => ms1.filter (fun mm : KnowledgeBaseUsageMetrics => mm.period_end ≤ pe)
        | none => ms1
      ms2.getLast?

/-! ## Agent model (src/backend/onyx/agents/base.py) and registry
(src/backend/onyx/agents/registry.py) -/

/-- `TriggerType` enum. -/
inductive TriggerType
  | manual | scheduled | webhook | connector_event
deriving DecidableEq, Repr

/-- `AgentType` enum. -/
inductive AgentType
  | conversational | research | task_executor | workflow | custom
deriving DecidableEq, Repr

/-- `AgentCapability` enum. -/
inductive AgentCapability
  | web_search | rag | tool_calling | code_execution
  | file_processing | api_integration | scheduling | conditional_logic
deriving DecidableEq, Repr

/-- `AgentTriggerConfig` dataclass. -/
structure AgentTriggerConfig where
  trigger_type : TriggerType
  enabled : Bool := true
  cron_expression : Option String := none
  webhook_url : Option String := none
  webhook_secret : Option String := none
  connector_events : List String := []
deriving DecidableEq, Repr

/-- A `{title, url}` source reference of an agent result. -/
structure SourceRef where
  title : Option String := none
  url : Option String := none
deriving DecidableEq, Repr

/-- The result dict an agent runner returns (`answer`, `sources`,
`metadata`). -/
structure AgentResult where
  answer : String := ""
  sources : List SourceRef := []
  metadata : List (String × String) := []
deriving DecidableEq, Repr

/-- Python dict assignment `d[k] = v` on an association list: overwrite
the first binding of `k` in place, else append. -/
def dictSet (d : List (String × String)) (k v : String) : List (String × String) :=
  match d with
  | [] => [(k, v)]
  | e :: rest => if e.1 = k then (k, v) :: rest else e :: dictSet rest k v

/-- The execution context handed to a runner: the opaque caller-supplied
part plus the reserved `"knowledge_bases"` entry the registry injects
(each element is the KB Manager's lookup result, so possibly absent). -/
structure ExecContext where
  entries : List (String × String) := []
  knowledge_bases : Option (List (Option KnowledgeBase)) := none

/-- An agent runner: `(query, context) -> result`, raising an arbitrary
exception on failure (the exception payload is kept opaque as a
`String`). -/
def AgentRunner := String → ExecContext → Except String AgentResult

/-- `AgentDefinition` dataclass, with the `__post_init__` default filling
applied (empty capability/KB/tag lists, a single enabled manual trigger). -/
structure AgentDefinition where
  key : String
  name : String
  description : String
  runner : AgentRunner
  agent_type : AgentType := .conversational
  capabilities : List AgentCapability := []
  use_knowledge_base : Bool := false
  knowledge_base_ids : List UUID := []
  api_endpoint : Option String := none
  requires_api_key : Bool := false
  version : String := "1.0.0"
  triggers : List AgentTriggerConfig := [{ trigger_type := .manual }]
  max_tokens : Option Nat := none
  timeout_seconds : Nat := 300
  icon : Option String := none
  color : Option String := none
  tags : List String := []
  created_at : Time := 0
  updated_at : Time := 0

/-- The registration-time `ValueError`s of `AgentRegistry.register`,
keyed by their message families. -/
inductive RegistryError
  | duplicateKey (key : String)
  | unknownKnowledgeBase (kb_id : UUID)
  | disabledKnowledgeBase (kb_id : UUID)
deriving DecidableEq, Repr

/-- The exceptions `AgentRegistry.execute_agent` lets escape: its own
unknown-agent `ValueError`, or whatever the runner raised (payload
preserved verbatim). -/
inductive ExecError
  | unknownAgent (key : String)
  | runnerFailure (exn : String)
deriving DecidableEq, Repr

/-- `AgentRegistry` state: the key-indexed registry dict plus the KB
manager it validates against. -/
structure AgentRegistry where
  registry : List (String × AgentDefinition) := []
  kb_manager : KnowledgeBaseManager := {}

/-- Dict lookup in the registry. -/
def AgentRegistry.get (r : AgentRegistry) (agent_key : String) : Option AgentDefinition :=
  (r.registry.find? (fun e => e.1 = agent_key)).map (fun e => e.2)

/-- The KB-validation loop of `register`: for each id in order, `not
found` beats nothing, `disabled` beats later ids. -/
def validateKnowledgeBaseIds (m : KnowledgeBaseManager) :
    List UUID → Option RegistryError
  | [] => none
  | kb_id :: rest =>
    match m.get_knowledge_base kb_id with
    | none => some (.unknownKnowledgeBase kb_id)
    | some kb =>
      if kb.enabled then validateKnowledgeBaseIds m rest
      else some (.disabledKnowledgeBase kb_id)

/-- `AgentRegistry.register`, state-passing: the returned error is the
raised `ValueError` (if any); the registry dict is only assigned on the
success path, exactly as in the source. -/
def AgentRegistry.register (r : AgentRegistry) (agent : AgentDefinition) :
    Option RegistryError × AgentRegistry :=
  if r.registry.any (fun e => e.1 = agent.key) then
    (some (.duplicateKey agent.key), r)
  else
    match
      (if agent.use_knowledge_base && !agent.knowledge_base_ids.isEmpty then
        validateKnowledgeBaseIds r.kb_manager agent.knowledge_base_ids
      else none) with
    | some e => (some e, r)
    | none => (none, { r with registry := r.registry ++ [(agent.key, agent)] })

/-- The `record_query` loop of `execute_agent` over the agent's bound KB
ids, returning the updated manager and the trace of
`(kb_id, success, latency_ms)` calls made. -/
def recordQueriesLoop (m : KnowledgeBaseManager) (ids : List UUID) (success : Bool)
    (latency_ms : Nat) (now : Time) : KnowledgeBaseManager × List (UUID × Bool × Nat) :=
  match ids with
  | [] => (m, [])
  | kb_id :: rest =>
    let m1 := m.record_query kb_id success latency_ms now
    let (m2, calls) := recordQueriesLoop m1 rest success latency_ms now
    (m2, (kb_id, success, latency_ms) :: calls)

/-- The execution-context preparation of `execute_agent`: the
caller-supplied context (or an empty one), with the resolved knowledge
bases injected under the reserved key when the agent uses KBs. -/
def AgentRegistry.buildExecContext (r : AgentRegistry) (agent : AgentDefinition)
    (context : Option ExecContext) : ExecContext :=
  let exec_context := context.getD {}
  if agent.use_knowledge_base && !agent.knowledge_base_ids.isEmpty then
    { exec_context with
        knowledge_bases :=
          some (agent.knowledge_base_ids.map
            (fun kb_id => r.kb_manager.get_knowledge_base kb_id)) }
  else exec_context

/-- `AgentRegistry.execute_agent`.  `t0` is the recorded start instant and
`t1` the instant after the runner returns or raises, so the measured
latency is `t1 - t0` milliseconds.  Returns the outcome, the KB manager
after metric recording, and the trace of `record_query` calls. -/
def AgentRegistry.execute_agent (r : AgentRegistry) (agent_key query : String)
    (context : Option ExecContext) (t0 t1 : Time) :
    Except ExecError AgentResult × KnowledgeBaseManager × List (UUID × Bool × Nat) :=
  match r.get agent_key with
  | none => (.error (.unknownAgent agent_key), r.kb_manager, [])
  | some agent =>
    let exec_context := r.buildExecContext agent context
    let latency := t1 - t0
    match agent.runner query exec_context with
    | .ok result =>
      let md := dictSet result.metadata "agent_key" agent_key
      let md := dictSet md "agent_name" agent.name
      let md := dictSet md "version" agent.version
      let md := dictSet md "execution_time_ms" (toString latency)
      let result := { result with metadata := md }
      if agent.use_knowledge_base && !agent.knowledge_base_ids.isEmpty then
        let recorded :=
          recordQueriesLoop r.kb_manager agent.knowledge_base_ids true latency t1
        (.ok result, recorded.1, recorded.2)
      else
        (.ok result, r.kb_manager, [])
    | .error e =>
      if agent.use_knowledge_base && !agent.knowledge_base_ids.isEmpty then
        let recorded :=
          recordQueriesLoop r.kb_manager agent.knowledge_base_ids false latency t1
        (.error (.runnerFailure e), recorded.1, recorded.2)
      else
        (.error (.runnerFailure e), r.kb_manager, [])

/-! ## Travel agent pipeline (src/backend/onyx/agents/travel/travel_agent.py)

The pipeline's calls to the generation (Gemini) and retrieval (Tavily)
providers are external collaborators; a `TravelOracles` record supplies
their responses for one run, and the step functions below embed what the
source does with those responses.  The graph wiring mirrors
`build_travel_agent_graph`: entry `analyze`, conditional edge via
`_should_search`, then `web_search → create_plans → synthesize → END`. -/

/-- Travel preference slots extracted by the analysis step. -/
structure TravelPreferences where
  destination : String := ""
  duration : String := ""
  budget : String := ""
  interests : List String := []
deriving DecidableEq, Repr

/-- One Tavily search result dict (keys read with `.get`, so optional). -/
structure SearchResult where
  title : Option String := none
  url : Option String := none
  content : Option String := none
  snippet : Option String := none
deriving DecidableEq, Repr

/-- The `TravelState` TypedDict (`total=False`): absent keys are read
with falsy/empty defaults throughout the source, so they are embedded
with those defaults. -/
structure TravelState where
  query : String
  needs_clarification : Bool := false
  clarification_questions : List String := []
  user_preferences : Option TravelPreferences := none
  search_results : List SearchResult := []
  travel_plans : List String := []
  answer : String := ""
deriving DecidableEq, Repr

/-- Outcome of the analysis model call after `_analyze_user_query`'s
regex-and-parse stage: a parsed JSON object, a JSON-looking block that
failed `json.loads`, or a response with no JSON block at all. -/
inductive GeminiAnalysis
  | json (has_destination needs_clarification : Bool)
      (clarification_questions : List String) (preferences : TravelPreferences)
  | badJson
  | noJson
deriving Repr

/-- External-provider responses for one pipeline run: the analysis
outcome, the per-call retrieval outcomes (`none` models a raised search
call, which the source swallows), and the generation texts of the
planning and fallback prompts. -/
structure TravelOracles where
  analysis : GeminiAnalysis
  search : List (Option (List SearchResult)) := []
  plans_text : String := ""
  fallback_text : String := ""

/-- `_analyze_user_query`: on parsed JSON, clarification is only kept
when the destination is truly missing (`needs_clarification and not
has_destination`) and the questions are truncated to at most 2; a parse
failure or missing JSON block proceeds without clarification with the
source's fallback preferences. -/
def travelAnalyze (o : GeminiAnalysis) (s : TravelState) : TravelState :=
  match o with
  | .json has_destination needs_clarification qs prefs =>
    { s with
        needs_clarification := needs_clarification && !has_destination
        clarification_questions := qs.take 2
        user_preferences := some prefs }
  | .badJson =>
    { s with
        needs_clarification := false
        user_preferences :=
          some { destination := "general", duration := "flexible", budget := "flexible" } }
  | .noJson =>
    { s with
        needs_clarification := false
        user_preferences :=
          some { destination := s.query, duration := "flexible", budget := "flexible" } }

/-- `_should_search`: the conditional edge out of `analyze`. -/
def travelShouldSearch (s : TravelState) : String :=
  if s.needs_clarification then "synthesize" else "web_search"

/-- `_deep_web_search`: of the four aspect queries only the first two are
issued; each raising call is swallowed (`except Exception: continue`) and
the surviving results are concatenated. -/
def travelWebSearch (attempts : List (Option (List SearchResult))) (s : TravelState) :
    TravelState :=
  { s with search_results := (attempts.take 2).flatMap (fun a => a.getD []) }

/-- `_create_travel_plans`: the generation response becomes the single
`travel_plans` entry (its `content`). -/
def travelCreatePlans (plans_text : String) (s : TravelState) : TravelState :=
  { s with travel_plans := [plans_text] }

/-- The numbered-question lines of the clarification answer
(`f"{i}. {q}\n"`, numbering from 1). -/
def numberedQuestions : List String → Nat → String
  | [], _ => ""
  | q :: rest, i => toString i ++ ". " ++ q ++ "\n" ++ numberedQuestions rest (i + 1)

/-- The clarification answer text assembled by `_synthesize_answer`. -/
def clarificationText (qs : List String) : String :=
  "# 🤔 Quick Questions\n\n"
    ++ "To create the perfect itinerary for you, I need a bit more information:\n\n"
    ++ numberedQuestions qs 1
    ++ "\n💡 **Tip:** Include destination, duration, and budget for the best recommendations!"

/-- The styled intro `_synthesize_answer` prepends to the plans content. -/
def plansIntro (prefs : Option TravelPreferences) : String :=
  let destination := (prefs.getD {}).destination
  let duration := (prefs.getD {}).duration
  let budget := (prefs.getD {}).budget
  let interests := (prefs.getD {}).interests
  let s := "<div style=\"text-align: center; padding: 30px; background: linear-gradient(135deg, #667eea 0%, #764ba2 100%); color: white; border-radius: 12px; margin-bottom: 30px;\">\n\n"
  let s :=
    if destination ≠ "" && destination ≠ "general" then
      let s := s ++ "# ✈️ Your " ++ destination ++ " Adventure Awaits!\n\n"
      let s :=
        if duration ≠ "" && duration ≠ "flexible" then
          s ++ "### 🎯 " ++ duration ++ " of unforgettable experiences\n\n"
        else s
      let s :=
        if budget ≠ "" && budget ≠ "flexible" then s ++ "💰 Budget: " ++ budget ++ "\n\n"
        else s
      if !interests.isEmpty then
        s ++ "🎨 Focus: " ++ String.intercalate ", " interests ++ "\n\n"
      else s
    else
      s ++ "# ✈️ Your Perfect Journey Starts Here!\n\n"
        ++ "### 🌍 Personalized travel plans just for you\n\n"
  s ++ "</div>\n\n"
    ++ "<div style=\"background: #FEF3C7; padding: 15px; border-radius: 8px; border-left: 4px solid #F59E0B; margin: 20px 0;\">\n\n"
    ++ "**📖 How to use these plans:**\n\n"
    ++ "1. 🔍 Review all 3 plans to find your perfect match\n"
    ++ "2. 📋 Each plan includes detailed daily itineraries, accommodation, and costs\n"
    ++ "3. 💡 Check insider tips to maximize your experience\n"
    ++ "4. 🔗 Use the resource links for bookings and more information\n\n"
    ++ "</div>\n\n"
    ++ "---\n\n"
    ++ "## 📑 Quick Navigation\n\n"
    ++ "- [🌟 Plan 1: Budget-Friendly Explorer](#plan-1-budget-friendly-explorer)\n"
    ++ "- [⚖️ Plan 2: Balanced Adventurer](#plan-2-balanced-adventurer)\n"
    ++ "- [💎 Plan 3: Premium Experience](#plan-3-premium-experience)\n\n"
    ++ "---\n\n"

/-- `_synthesize_answer`.  Note the fall-through: when clarification is
flagged but the question list is empty, the inner `if questions:` fails
and control continues into the plans/fallback branches. -/
def travelSynthesize (o : TravelOracles) (s : TravelState) : TravelState :=
  if s.answer ≠ "" then s
  else if s.needs_clarification && !s.clarification_questions.isEmpty then
    { s with answer := clarificationText s.clarification_questions }
  else if !s.travel_plans.isEmpty then
    { s with answer := plansIntro s.user_preferences ++ s.travel_plans.headD "" }
  else
    { s with answer := "# ✈️ Travel Guide\n\n" ++ o.fallback_text }

/-- One compiled-graph invocation on the initial state `{"query": query}`:
the final state together with the list of executed node names. -/
def runTravelPipeline (o : TravelOracles) (query : String) :
    TravelState × List String :=
  let s0 : TravelState := { query := query }
  let s1 := travelAnalyze o.analysis s0
  if travelShouldSearch s1 = "synthesize" then
    (travelSynthesize o s1, ["analyze", "synthesize"])
  else
    let s2 := travelWebSearch o.search s1
    let s3 := travelCreatePlans o.plans_text s2
    (travelSynthesize o s3, ["analyze", "web_search", "create_plans", "synthesize"])

/-! ## Claims -/

/-- Claim C2: for every registry state and every agent definition whose
key is already registered, `register` fails with the duplicate-key error
and the registry's key-to-definition mapping after the failed attempt is
identical to the mapping before it. -/
theorem register_duplicate_key (r : AgentRegistry) (agent : AgentDefinition)
    (h : r.registry.any (fun e => e.1 = agent.key) = true) :
    (r.register agent).1 = some (RegistryError.duplicateKey agent.key) ∧
      (r.register agent).2 = r := by
  simp [AgentRegistry.register, h]

def c2runner : AgentRunner := fun _ _ => .ok {}

def c2agent : AgentDefinition :=
  { key := "travel_planning_agent"
    name := "AI Travel Planning Assistant"
    description := "travel planning"
    runner := c2runner }

def c2registry : AgentRegistry :=
  { registry := [("travel_planning_agent", c2agent)] }

/-- Witness for C2 at a concrete registry holding the agent key. -/
theorem register_duplicate_key_witness :
    (c2registry.register c2agent).1 =
        some (RegistryError.duplicateKey "travel_planning_agent") ∧
      (c2registry.register c2agent).2 = c2registry :=
  register_duplicate_key c2registry c2agent (by decide)

/-- Claim C5: rolling back to a tag absent from the version history
returns `false` and leaves the knowledge base (in particular
`current_version` and `versions`) unchanged; rolling back to a present
tag returns `true` and sets `current_version` to exactly that tag; in
both cases the `versions` history is not deleted, mutated or
reordered. -/
theorem rollback_version_spec (kb : KnowledgeBase) (target : String) (now : Time) :
    ((∀ v ∈ kb.versions, v.version ≠ target) →
        kb.rollback_version target now = (false, kb)) ∧
      ((∃ v ∈ kb.versions, v.version = target) →
        kb.rollback_version target now =
          (true, { kb with current_version := target, updated_at := now })) := by
  refine ⟨fun h => ?_, fun h => ?_⟩
  · unfold KnowledgeBase.rollback_version
    split
    · next hc =>
      rw [List.any_eq_true] at hc
      obtain ⟨v, hv, hveq⟩ := hc
      exact absurd (of_decide_eq_true hveq) (h v hv)
    · rfl
  · unfold KnowledgeBase.rollback_version
    split
    · rfl
    · next hc =>
      obtain ⟨v, hv, hveq⟩ := h
      exact absurd (List.any_eq_true.mpr ⟨v, hv, decide_eq_true hveq⟩) hc

def c5version : KnowledgeVersion := { version := "v1.0.1", created_at := 0 }

def c5kb : KnowledgeBase :=
  { kb_id := 3
    name := "kb"
    created_at := 0
    updated_at := 0
    current_version := "v1.0.1"
    versions := [c5version] }

/-- Witness for C5: a never-created tag is refused and changes nothing; a
present tag is adopted. -/
theorem rollback_version_spec_witness :
    c5kb.rollback_version "v9.9.9" 5 = (false, c5kb) ∧
      c5kb.rollback_version "v1.0.1" 5 =
        (true, { c5kb with current_version := "v1.0.1", updated_at := 5 }) :=
  ⟨(rollback_version_spec c5kb "v9.9.9" 5).1 (by decide),
   (rollback_version_spec c5kb "v1.0.1" 5).2 ⟨c5version, by decide, by decide⟩⟩

/-- Claim C10 (implicit): every `create_knowledge_base` returns a
knowledge base with exactly one seeded version and `current_version`
`"v1.0.1"` — not the model's declared default `"v1.0.0"`, because seeding
the initial version bumps the default tag's patch component — and the
seeded version has `document_count = 0` and `total_size_bytes = 0`. -/
theorem create_knowledge_base_initial_version (m : KnowledgeBaseManager)
    (name description : String) (agent_keys : List String)
    (created_by : Option String) (kb_id : UUID) (now : Time) :
    ∃ kb m2,
      m.create_knowledge_base name description agent_keys created_by kb_id now =
        some (kb, m2) ∧
      kb.versions.length = 1 ∧
      kb.current_version = "v1.0.1" ∧
      "v1.0.1" ≠ "v1.0.0" ∧
      ∃ v0, kb.versions = [v0] ∧ v0.document_count = 0 ∧ v0.total_size_bytes = 0 := by
  refine ⟨_, _, rfl, rfl, ?_, by decide, _, rfl, rfl, rfl⟩
  show renderTag 1 0 (0 + 1) = "v1.0.1"
  decide

theorem lookupKB_updateFirstKB (kbs : List KnowledgeBase) (kb_id : UUID)
    (f : KnowledgeBase → KnowledgeBase) (hf : ∀ kb, (f kb).kb_id = kb.kb_id) :
    lookupKB (updateFirstKB kbs kb_id f) kb_id = (lookupKB kbs kb_id).map f := by
  induction kbs with
  | nil => rfl
  | cons kb rest ih =>
    unfold updateFirstKB lookupKB
    by_cases h : kb.kb_id = kb_id
    · rw [if_pos h]
      rw [List.find?_cons_of_pos _ (by simp [hf, h]), List.find?_cons_of_pos _ (by simp [h])]
      rfl
    · rw [if_neg h]
      rw [List.find?_cons_of_neg _ (by simp [h]), List.find?_cons_of_neg _ (by simp [h])]
      exact ih

/-- Claim C9 (amended): for a present id, `recordQuery` increments the
knowledge base's query counter and stamps `last_queried_at`, but the
success flag and latency are discarded (the source's metrics update is an
unimplemented `TODO`), so the metrics store is untouched and
`metricsFor` is unaffected by recorded queries; `metricsFor` is absent
whenever the store has no snapshot list for the id. -/
theorem record_query_metrics (m : KnowledgeBaseManager) (kb_id : UUID)
    (success : Bool) (latency_ms : Nat) (now : Time) (kb : KnowledgeBase)
    (h : m.get_knowledge_base kb_id = some kb) :
    (m.record_query kb_id success latency_ms now).metrics = m.metrics ∧
      (m.record_query kb_id success latency_ms now).get_knowledge_base kb_id =
        some { kb with query_count := kb.query_count + 1, last_queried_at := some now } ∧
      (∀ success2 latency2,
        m.record_query kb_id success latency_ms now =
          m.record_query kb_id success2 latency2 now) ∧
      (∀ ps pe,
        (m.record_query kb_id success latency_ms now).get_metrics kb_id ps pe =
          m.get_metrics kb_id ps pe) ∧
      (m.metrics.find? (fun e => e.1 = kb_id) = none →
        ∀ ps pe, m.get_metrics kb_id ps pe = none) := by
  refine ⟨?_, ?_, ?_, ?_, ?_⟩
  · simp [KnowledgeBaseManager.record_query, h]
  · unfold KnowledgeBaseManager.record_query
    unfold KnowledgeBaseManager.get_knowledge_base at h ⊢
    rw [h]
    show lookupKB (updateFirstKB m.knowledge_bases kb_id (fun kb2 => kb2.record_query now))
        kb_id = _
    rw [lookupKB_updateFirstKB m.knowledge_bases kb_id (fun kb2 => kb2.record_query now)
        (fun kb2 => rfl), h]
    rfl
  · intro success2 latency2
    rfl
  · intro ps pe
    unfold KnowledgeBaseManager.get_metrics
    rw [show (m.record_query kb_id success latency_ms now).metrics = m.metrics by
      simp [KnowledgeBaseManager.record_query, h]]
  · intro hfind ps pe
    unfold KnowledgeBaseManager.get_metrics
    rw [hfind]

def c9manager : KnowledgeBaseManager :=
  match (({} : KnowledgeBaseManager).create_knowledge_base "docs" "" [] none 7 0) with
  | some (_, m2) => m2
  | none => {}

/-- Counterexample to C9 as stated: on a freshly created knowledge base,
recording a successful and a failed query yield literally identical
manager states — the success/failure distinction is discarded — and no
metrics snapshot exists afterwards, so the distinction cannot have fed
`metricsFor`. -/
theorem record_query_metrics_counterexample :
    c9manager.record_query 7 true 123 5 = c9manager.record_query 7 false 999 5 ∧
      (c9manager.record_query 7 false 999 5).get_metrics 7 none none = none ∧
      ((c9manager.record_query 7 false 999 5).get_knowledge_base 7).map
          (fun kb => kb.query_count) = some 1 :=
  ⟨rfl, rfl, rfl⟩

theorem mem_ite_nil_right {α : Type _} (x : α) (p : Prop) [Decidable p] (l : List α) :
    (x ∈ if p then l else []) ↔ p ∧ x ∈ l := by
  by_cases h : p <;> simp [h]

theorem nextSyncDue_eq_true (o : Option Time) (now : Time) :
    ((match o with
      | some t => decide (t ≤ now)
      | none => false) = true) ↔ ∃ t, o = some t ∧ t ≤ now := by
  cases o <;> simp

/-- Claim C7: `dueForSync` returns exactly the `(kbId, connectorId)`
pairs whose knowledge base is enabled and whose connector is enabled,
has `autoSync`, and has a set `nextSyncAt <= now`; in particular every
connector of a disabled knowledge base is excluded regardless of the
connector's own state. -/
theorem due_for_sync_spec (m : KnowledgeBaseManager) (now : Time)
    (hids : (m.knowledge_bases.map (fun kb => kb.kb_id)).Nodup) :
    (∀ k c, (k, c) ∈ m.get_connectors_due_for_sync now ↔
      ∃ kb ∈ m.knowledge_bases, kb.kb_id = k ∧ kb.enabled = true ∧
        ∃ conn ∈ kb.connectors, conn.connector_id = c ∧ conn.enabled = true ∧
          conn.auto_sync = true ∧ ∃ t, conn.next_sync_at = some t ∧ t ≤ now) ∧
    (∀ kb ∈ m.knowledge_bases, kb.enabled = false →
      ∀ conn ∈ kb.connectors,
        (kb.kb_id, conn.connector_id) ∉ m.get_connectors_due_for_sync now) := by
  have hmem : ∀ k c, (k, c) ∈ m.get_connectors_due_for_sync now ↔
      ∃ kb ∈ m.knowledge_bases, kb.kb_id = k ∧ kb.enabled = true ∧
        ∃ conn ∈ kb.connectors, conn.connector_id = c ∧ conn.enabled = true ∧
          conn.auto_sync = true ∧ ∃ t, conn.next_sync_at = some t ∧ t ≤ now := by
    intro k c
    unfold KnowledgeBaseManager.get_connectors_due_for_sync
    simp only [List.mem_flatMap, mem_ite_nil_right, KnowledgeBase.get_active_connectors,
      List.mem_filter, Bool.and_eq_true, nextSyncDue_eq_true, List.mem_singleton,
      Prod.mk.injEq]
    constructor
    · rintro ⟨kb, hkb, hen, conn, ⟨hconn, hcen⟩, ⟨hauto, t, hnext, ht⟩, hk, hc⟩
      exact ⟨kb, hkb, hk.symm, hen, conn, hconn, hc.symm, hcen, hauto, t, hnext, ht⟩
    · rintro ⟨kb, hkb, hk, hen, conn, hconn, hc, hcen, hauto, t, hnext, ht⟩
      exact ⟨kb, hkb, hen, conn, ⟨hconn, hcen⟩, ⟨hauto, t, hnext, ht⟩, hk.symm, hc.symm⟩
  refine ⟨hmem, ?_⟩
  intro kb hkb henabled conn hconn habs
  rcases (hmem kb.kb_id conn.connector_id).mp habs with
    ⟨kb2, hkb2, hid2, hen2, rest⟩
  have : kb2 = kb := List.inj_on_of_nodup_map hids hkb2 hkb hid2
  subst this
  rw [henabled] at hen2
  cases hen2

def c7conn1 : ConnectorConfig :=
  { connector_id := 20
    connector_type := .notion
    name := "due connector"
    auto_sync := true
    sync_interval_minutes := 10
    next_sync_at := some 4 }

def c7conn2 : ConnectorConfig :=
  { connector_id := 21
    connector_type := .slack
    name := "connector of disabled kb"
    auto_sync := true
    sync_interval_minutes := 10
    next_sync_at := some 4 }

def c7kb1 : KnowledgeBase :=
  { kb_id := 10, name := "k1", created_at := 0, updated_at := 0, connectors := [c7conn1] }

def c7kb2 : KnowledgeBase :=
  { kb_id := 11, name := "k2", created_at := 0, updated_at := 0, enabled := false
    connectors := [c7conn2] }

def c7manager : KnowledgeBaseManager := { knowledge_bases := [c7kb1, c7kb2] }

/-- Witness for C7: with `nextSyncAt` one minute in the past the pair is
due; the identical connector under a disabled KB is excluded. -/
theorem due_for_sync_spec_witness :
    (10, 20) ∈ c7manager.get_connectors_due_for_sync 5 ∧
      (11, 21) ∉ c7manager.get_connectors_due_for_sync 5 := by
  have H := due_for_sync_spec c7manager 5 (by decide)
  refine ⟨?_, ?_⟩
  · exact (H.1 10 20).mpr
      ⟨c7kb1, by decide, rfl, rfl, c7conn1, by decide, rfl, rfl, rfl, 4, rfl, by decide⟩
  · exact H.2 c7kb2 (by decide) rfl c7conn2 (by decide)

theorem recordQueriesLoop_trace (ids : List UUID) (m : KnowledgeBaseManager)
    (success : Bool) (latency_ms : Nat) (now : Time) :
    (recordQueriesLoop m ids success latency_ms now).2 =
      ids.map (fun kb_id => (kb_id, success, latency_ms)) := by
  induction ids generalizing m with
  | nil => rfl
  | cons kb_id rest ih => simp [recordQueriesLoop, ih]

theorem filter_fst_map_length_one {β : Type _} (ids : List UUID) (f : UUID → UUID × β)
    (hf : ∀ i, (f i).1 = i) (kb_id : UUID) (hnodup : ids.Nodup) (hmem : kb_id ∈ ids) :
    ((ids.map f).filter (fun call => call.1 = kb_id)).length = 1 := by
  induction ids with
  | nil => cases hmem
  | cons i rest ih =>
    rw [List.nodup_cons] at hnodup
    rw [List.map_cons]
    by_cases hik : i = kb_id
    · subst hik
      rw [List.filter_cons_of_pos (by simp [hf])]
      have hnil : (rest.map f).filter (fun call => decide (call.1 = i)) = [] := by
        rw [List.filter_eq_nil_iff]
        intro a ha
        rw [List.mem_map] at ha
        obtain ⟨j, hj, rfl⟩ := ha
        simp only [hf, decide_eq_true_eq]
        intro hji
        exact hnodup.1 (hji ▸ hj)
      rw [hnil]
      rfl
    · have hmem2 : kb_id ∈ rest := by
        cases hmem with
        | head => exact absurd rfl hik
        | tail _ h => exact h
      rw [List.filter_cons_of_neg (by simp [hf, hik])]
      exact ih hnodup.2 hmem2

/-- Claim C1: when a registered agent uses knowledge bases (non-empty id
list) and its runner raises, `execute_agent` records a failed query for
each bound KB id — exactly once per id — and the original exception
propagates unchanged to the caller. -/
theorem execute_agent_failure_records (r : AgentRegistry) (agent_key query : String)
    (context : Option ExecContext) (t0 t1 : Time) (agent : AgentDefinition) (e : String)
    (h1 : r.get agent_key = some agent)
    (h2 : agent.use_knowledge_base = true)
    (h3 : agent.knowledge_base_ids ≠ [])
    (h4 : agent.runner query (r.buildExecContext agent context) = .error e) :
    (r.execute_agent agent_key query context t0 t1).1 =
        .error (.runnerFailure e) ∧
      (r.execute_agent agent_key query context t0 t1).2.2 =
        agent.knowledge_base_ids.map (fun kb_id => (kb_id, false, t1 - t0)) ∧
      (agent.knowledge_base_ids.Nodup →
        ∀ kb_id ∈ agent.knowledge_base_ids,
          ((r.execute_agent agent_key query context t0 t1).2.2.filter
              (fun call => call.1 = kb_id)).length = 1) := by
  have hcond : (agent.use_knowledge_base && !agent.knowledge_base_ids.isEmpty) = true := by
    obtain ⟨i, ids2, hids⟩ := List.exists_cons_of_ne_nil h3
    rw [h2, hids]
    rfl
  have hrun : r.execute_agent agent_key query context t0 t1 =
      (.error (.runnerFailure e),
        (recordQueriesLoop r.kb_manager agent.knowledge_base_ids false (t1 - t0) t1).1,
        (recordQueriesLoop r.kb_manager agent.knowledge_base_ids false (t1 - t0) t1).2) := by
    simp only [AgentRegistry.execute_agent, h1, h4, hcond, if_true]
  refine ⟨by rw [hrun], ?_, ?_⟩
  · rw [hrun]
    exact recordQueriesLoop_trace _ _ _ _ _
  · intro hnodup kb_id hmem
    rw [hrun]
    show (((recordQueriesLoop r.kb_manager agent.knowledge_base_ids false (t1 - t0) t1).2).filter
        (fun call => call.1 = kb_id)).length = 1
    rw [recordQueriesLoop_trace]
    exact filter_fst_map_length_one agent.knowledge_base_ids
      (fun i : UUID => (i, false, t1 - t0)) (fun i => rfl) kb_id hnodup hmem

def c1manager : KnowledgeBaseManager :=
  match (({} : KnowledgeBaseManager).create_knowledge_base "kb" "" [] none 7 0) with
  | some (_, m2) => m2
  | none => {}

def c1agent : AgentDefinition :=
  { key := "failing_agent"
    name := "Failing Agent"
    description := "always raises"
    runner := fun _ _ => .error "boom"
    use_knowledge_base := true
    knowledge_base_ids := [7] }

def c1registry : AgentRegistry :=
  { registry := [("failing_agent", c1agent)], kb_manager := c1manager }

/-- Witness for C1: a raising runner bound to KB 7 yields one failed
`record_query` call for id 7 and the error escapes. -/
theorem execute_agent_failure_records_witness :
    (c1registry.execute_agent "failing_agent" "q" none 2 5).1 =
        .error (.runnerFailure "boom") ∧
      (c1registry.execute_agent "failing_agent" "q" none 2 5).2.2 = [(7, false, 3)] ∧
      ((c1registry.execute_agent "failing_agent" "q" none 2 5).2.2.filter
          (fun call => call.1 = 7)).length = 1 := by
  have H := execute_agent_failure_records c1registry "failing_agent" "q" none 2 5 c1agent
    "boom" rfl rfl (by decide) rfl
  refine ⟨H.1, ?_, H.2.2 (by decide) 7 (by decide)⟩
  rw [H.2.1]
  rfl

def c3kb : KnowledgeBase :=
  { kb_id := 1, name := "disabled kb", created_at := 0, updated_at := 0, enabled := false }

def c3kbEnabled : KnowledgeBase :=
  { kb_id := 3, name := "enabled kb", created_at := 0, updated_at := 0 }

def c3manager : KnowledgeBaseManager := { knowledge_bases := [c3kb, c3kbEnabled] }

def c3agent : AgentDefinition :=
  { key := "kb_agent"
    name := "KB Agent"
    description := ""
    runner := fun _ _ => .ok {}
    use_knowledge_base := true
    knowledge_base_ids := [1, 2] }

def c3registry : AgentRegistry := { registry := [], kb_manager := c3manager }

/-- Counterexample to C3 as stated: with `knowledge_base_ids = [1, 2]`
where KB 1 exists but is disabled and id 2 is absent from the manager,
some id is absent yet `register` fails with `DisabledKnowledgeBase 1`,
not with `UnknownKnowledgeBase` — the validation loop reports the first
offending id in list order.  (The agent is still not added.) -/
theorem register_kb_validation_counterexample :
    c3registry.kb_manager.get_knowledge_base 2 = none ∧
      2 ∈ c3agent.knowledge_base_ids ∧
      (c3registry.register c3agent).1 = some (.disabledKnowledgeBase 1) ∧
      (∀ kb_id, (c3registry.register c3agent).1 ≠ some (.unknownKnowledgeBase kb_id)) ∧
      (c3registry.register c3agent).2 = c3registry := by
  refine ⟨rfl, by decide, rfl, ?_, rfl⟩
  intro kb_id h
  rw [show (c3registry.register c3agent).1 =
      some (RegistryError.disabledKnowledgeBase 1) from rfl] at h
  exact RegistryError.noConfusion (Option.some.inj h)

theorem validateKnowledgeBaseIds_append_offender (m : KnowledgeBaseManager)
    (pre : List UUID)
    (hpre : ∀ j ∈ pre, ∃ kb, m.get_knowledge_base j = some kb ∧ kb.enabled = true)
    (kb_id : UUID) (post : List UUID) :
    validateKnowledgeBaseIds m (pre ++ kb_id :: post) =
      match m.get_knowledge_base kb_id with
      | none => some (.unknownKnowledgeBase kb_id)
      | some kb =>
        if kb.enabled then validateKnowledgeBaseIds m post
        else some (.disabledKnowledgeBase kb_id) := by
  induction pre with
  | nil => rfl
  | cons j rest ih =>
    obtain ⟨kb, hkb, hen⟩ := hpre j (List.mem_cons_self j rest)
    rw [List.cons_append]
    show (match m.get_knowledge_base j with
      | none => some (RegistryError.unknownKnowledgeBase j)
      | some kb =>
        if kb.enabled then validateKnowledgeBaseIds m (rest ++ kb_id :: post)
        else some (RegistryError.disabledKnowledgeBase j)) = _
    rw [hkb]
    simp only [hen, if_true]
    exact ih (fun j2 hj2 => hpre j2 (List.mem_cons_of_mem j hj2))

/-- Claim C3 (amended): with an unregistered key, KB use enabled and a
non-empty id list, `register` reports the error of the *first* offending
id in `knowledge_base_ids` order — `UnknownKnowledgeBase` if that id is
absent from the manager, `DisabledKnowledgeBase` if it is present but
disabled — and in either failure case the agent is not added (registry
state unchanged). -/
theorem register_kb_validation_first_offender (r : AgentRegistry)
    (agent : AgentDefinition) (pre : List UUID) (kb_id : UUID) (post : List UUID)
    (hkey : r.registry.any (fun e => e.1 = agent.key) = false)
    (huse : agent.use_knowledge_base = true)
    (hids : agent.knowledge_base_ids = pre ++ kb_id :: post)
    (hpre : ∀ j ∈ pre, ∃ kb, r.kb_manager.get_knowledge_base j = some kb ∧
      kb.enabled = true) :
    (r.kb_manager.get_knowledge_base kb_id = none →
        r.register agent = (some (.unknownKnowledgeBase kb_id), r)) ∧
      (∀ kb, r.kb_manager.get_knowledge_base kb_id = some kb → kb.enabled = false →
        r.register agent = (some (.disabledKnowledgeBase kb_id), r)) := by
  have hne : agent.knowledge_base_ids ≠ [] := by
    rw [hids]
    intro hc
    exact (List.cons_ne_nil kb_id post) (List.append_eq_nil.mp hc).2
  have hcond : (agent.use_knowledge_base && !agent.knowledge_base_ids.isEmpty) = true := by
    obtain ⟨i, ids2, hi⟩ := List.exists_cons_of_ne_nil hne
    rw [huse, hi]
    rfl
  have hval := validateKnowledgeBaseIds_append_offender r.kb_manager pre hpre kb_id post
  rw [← hids] at hval
  constructor
  · intro hnone
    rw [hnone] at hval
    simp only [AgentRegistry.register, hkey, Bool.false_eq_true, if_false, hcond, if_true,
      hval]
  · intro kb hkb hdis
    rw [hkb] at hval
    simp only [hdis, Bool.false_eq_true, if_false] at hval
    simp only [AgentRegistry.register, hkey, Bool.false_eq_true, if_false, hcond, if_true,
      hval]

/-- Witness for C3 (amended): first offender absent gives
`UnknownKnowledgeBase`; first offender disabled gives
`DisabledKnowledgeBase`. -/
theorem register_kb_validation_first_offender_witness :
    c3registry.register { c3agent with key := "unknown_case", knowledge_base_ids := [3, 2] } =
        (some (.unknownKnowledgeBase 2), c3registry) ∧
      c3registry.register { c3agent with key := "disabled_case", knowledge_base_ids := [3, 1] } =
        (some (.disabledKnowledgeBase 1), c3registry) := by
  have hpre : ∀ j ∈ ([3] : List UUID),
      ∃ kb, c3registry.kb_manager.get_knowledge_base j = some kb ∧ kb.enabled = true := by
    intro j hj
    rw [List.mem_singleton] at hj
    subst hj
    exact ⟨c3kbEnabled, rfl, rfl⟩
  constructor
  · exact (register_kb_validation_first_offender c3registry _ [3] 2 [] rfl rfl rfl hpre).1 rfl
  · exact (register_kb_validation_first_offender c3registry _ [3] 1 [] rfl rfl rfl
      hpre).2 c3kb rfl rfl

/-- The knowledge base stored under id 7 in `c9manager`. -/
def c9kbval : KnowledgeBase :=
  match c9manager.get_knowledge_base 7 with
  | some kb => kb
  | none => { kb_id := 0, name := "", created_at := 0, updated_at := 0 }

/-- Witness for C9 (amended) on the freshly created knowledge base. -/
theorem record_query_metrics_witness :
    (c9manager.record_query 7 true 123 5).metrics = c9manager.metrics ∧
      ((c9manager.record_query 7 true 123 5).get_knowledge_base 7).map
          (fun kb => kb.query_count) = some 1 := by
  have H := record_query_metrics c9manager 7 true 123 5 c9kbval rfl
  refine ⟨H.1, ?_⟩
  rw [H.2.1]
  rfl

/-- Claim C6: on an existing knowledge base, `trigger_sync` selects the
named connector (if given and enabled) or else all enabled connectors;
with nothing eligible it returns `false` and the KB's status ends up
`active` with everything else untouched; with eligible connectors it
returns `true`, stamps each synced connector's `last_sync_at`, bumps its
`total_syncs`, recomputes `next_sync_at` for auto-sync connectors, and
the KB's status is `active` afterwards. -/
theorem trigger_sync_spec (m : KnowledgeBaseManager) (kb_id : UUID)
    (connector_id : Option UUID) (now : Time) (kb : KnowledgeBase)
    (h : m.get_knowledge_base kb_id = some kb) :
    (kb.connectors.filter (syncEligible connector_id) = [] →
        m.trigger_sync kb_id connector_id now =
          (false,
            { m with
                knowledge_bases :=
                  updateFirstKB m.knowledge_bases kb_id
                    (fun _ => { kb with status := .active }) })) ∧
      (kb.connectors.filter (syncEligible connector_id) ≠ [] →
        m.trigger_sync kb_id connector_id now =
          (true,
            { m with
                knowledge_bases :=
                  updateFirstKB m.knowledge_bases kb_id
                    (fun _ =>
                      { kb with
                          connectors :=
                            kb.connectors.map (fun c =>
                              if syncEligible connector_id c then
                                syncConnectorUpdate now c
                              else c)
                          status := .active
                          updated_at := now }) })) := by
  unfold KnowledgeBaseManager.trigger_sync
  rw [h]
  constructor
  · intro hempty
    show (if (kb.connectors.filter (syncEligible connector_id)).isEmpty then _ else _) = _
    rw [hempty]
    rfl
  · intro hnonempty
    show (if (kb.connectors.filter (syncEligible connector_id)).isEmpty then _ else _) = _
    rw [if_neg (fun hcontra => hnonempty (List.isEmpty_iff.mp hcontra))]

def c6conn : ConnectorConfig :=
  { connector_id := 30
    connector_type := .github
    name := "gh"
    auto_sync := true
    sync_interval_minutes := 10
    next_sync_at := some 100 }

def c6connDisabled : ConnectorConfig :=
  { connector_id := 31
    connector_type := .github
    name := "gh disabled"
    enabled := false }

def c6kb : KnowledgeBase :=
  { kb_id := 12, name := "kb with connectors", created_at := 0, updated_at := 0
    connectors := [c6conn, c6connDisabled] }

def c6kbIdle : KnowledgeBase :=
  { kb_id := 13, name := "kb without eligible connectors", created_at := 0, updated_at := 0
    connectors := [c6connDisabled] }

def c6manager : KnowledgeBaseManager := { knowledge_bases := [c6kb, c6kbIdle] }

/-- Witness for C6: nothing eligible gives `false` with status `active`;
a named enabled connector gives `true` with the connector bookkeeping
applied. -/
theorem trigger_sync_spec_witness :
    c6manager.trigger_sync 13 none 50 =
        (false,
          { c6manager with
              knowledge_bases :=
                updateFirstKB c6manager.knowledge_bases 13
                  (fun _ => { c6kbIdle with status := .active }) }) ∧
      c6manager.trigger_sync 12 (some 30) 50 =
        (true,
          { c6manager with
              knowledge_bases :=
                updateFirstKB c6manager.knowledge_bases 12
                  (fun _ =>
                    { c6kb with
                        connectors :=
                          c6kb.connectors.map (fun c =>
                            if syncEligible (some 30) c then syncConnectorUpdate 50 c
                            else c)
                        status := .active
                        updated_at := 50 }) }) :=
  ⟨(trigger_sync_spec c6manager 13 none 50 c6kbIdle rfl).1 (by decide),
   (trigger_sync_spec c6manager 12 (some 30) 50 c6kb rfl).2 (by decide)⟩

theorem travelSynthesize_preserves (o : TravelOracles) (s : TravelState) :
    (travelSynthesize o s).clarification_questions = s.clarification_questions ∧
      (travelSynthesize o s).search_results = s.search_results ∧
      (travelSynthesize o s).travel_plans = s.travel_plans := by
  unfold travelSynthesize
  split
  · exact ⟨rfl, rfl, rfl⟩
  · split
    · exact ⟨rfl, rfl, rfl⟩
    · split
      · exact ⟨rfl, rfl, rfl⟩
      · exact ⟨rfl, rfl, rfl⟩

/-- Claim C8 (amended): when the analysis step keeps
`needs_clarification` (parsed JSON with `needs_clarification` and no
destination), the pipeline goes directly from `analyze` to `synthesize`
— the search and planning steps never run, so no retrieval result or
plan exists in the final state — and at most 2 clarification questions
are kept; provided at least one question was produced, the final answer
is exactly the rendered clarification text.  (With zero questions the
synthesis step falls through to the fallback direct-answer generation
instead.) -/
theorem clarification_short_circuit (o : TravelOracles) (query : String)
    (has_destination needs_clarification : Bool) (qs : List String)
    (prefs : TravelPreferences)
    (hana : o.analysis = .json has_destination needs_clarification qs prefs)
    (hclar : (needs_clarification && !has_destination) = true) :
    (runTravelPipeline o query).2 = ["analyze", "synthesize"] ∧
      (runTravelPipeline o query).1.clarification_questions = qs.take 2 ∧
      (runTravelPipeline o query).1.clarification_questions.length ≤ 2 ∧
      (runTravelPipeline o query).1.search_results = [] ∧
      (runTravelPipeline o query).1.travel_plans = [] ∧
      (qs.take 2 ≠ [] →
        (runTravelPipeline o query).1.answer = clarificationText (qs.take 2)) := by
  have hs1 : travelAnalyze o.analysis { query := query } =
      { query := query
        needs_clarification := true
        clarification_questions := qs.take 2
        user_preferences := some prefs } := by
    rw [hana]
    show ({ query := query
            needs_clarification := needs_clarification && !has_destination
            clarification_questions := qs.take 2
            user_preferences := some prefs } : TravelState) = _
    rw [hclar]
  have hrun : runTravelPipeline o query =
      (travelSynthesize o
        { query := query
          needs_clarification := true
          clarification_questions := qs.take 2
          user_preferences := some prefs },
        ["analyze", "synthesize"]) := by
    show (if travelShouldSearch (travelAnalyze o.analysis { query := query }) = "synthesize"
        then (travelSynthesize o (travelAnalyze o.analysis { query := query }),
          ["analyze", "synthesize"])
        else
          (travelSynthesize o
              (travelCreatePlans o.plans_text
                (travelWebSearch o.search (travelAnalyze o.analysis { query := query }))),
            ["analyze", "web_search", "create_plans", "synthesize"])) = _
    rw [hs1]
    rfl
  have hpres := travelSynthesize_preserves o
    { query := query
      needs_clarification := true
      clarification_questions := qs.take 2
      user_preferences := some prefs }
  rw [hrun]
  refine ⟨rfl, hpres.1, ?_, hpres.2.1, hpres.2.2, ?_⟩
  · rw [hpres.1]
    show (qs.take 2).length ≤ 2
    rw [List.length_take]
    exact Nat.min_le_left _ _
  · intro hq
    obtain ⟨q, qrest, hq2⟩ := List.exists_cons_of_ne_nil hq
    rw [hq2]
    rfl

def c8oracles : TravelOracles :=
  { analysis := .json false true [] {}
    fallback_text := "GENERATED CONTENT" }

/-- Counterexample to C8 as stated: an analysis outcome that sets
`needs_clarification` but produces zero questions still short-circuits
past search and planning, yet `_synthesize_answer`'s inner `if
questions:` fails, control falls through to the fallback branch, and the
final answer is generated direct-answer content — not (only) the
clarification-question text. -/
theorem clarification_short_circuit_counterexample :
    (runTravelPipeline c8oracles "plan me a trip").1.needs_clarification = true ∧
      (runTravelPipeline c8oracles "plan me a trip").1.clarification_questions = [] ∧
      (runTravelPipeline c8oracles "plan me a trip").2 = ["analyze", "synthesize"] ∧
      (runTravelPipeline c8oracles "plan me a trip").1.answer =
        "# ✈️ Travel Guide\n\nGENERATED CONTENT" ∧
      (runTravelPipeline c8oracles "plan me a trip").1.answer ≠ clarificationText [] :=
  ⟨rfl, rfl, rfl, rfl, by decide⟩

/-- Witness for C8 (amended) with one produced question. -/
theorem clarification_short_circuit_witness :
    (runTravelPipeline
        { analysis := .json false true ["Where would you like to go?"] {} }
        "plan a trip").2 = ["analyze", "synthesize"] ∧
      (runTravelPipeline
          { analysis := .json false true ["Where would you like to go?"] {} }
          "plan a trip").1.travel_plans = [] ∧
      (runTravelPipeline
          { analysis := .json false true ["Where would you like to go?"] {} }
          "plan a trip").1.answer =
        clarificationText ["Where would you like to go?"] := by
  have H := clarification_short_circuit
    { analysis := .json false true ["Where would you like to go?"] {} }
    "plan a trip" false true ["Where would you like to go?"] {} rfl rfl
  exact ⟨H.1, H.2.2.2.2.1, H.2.2.2.2.2 (by decide)⟩

/-- The arguments of one `create_version` call (with its `utcnow`
instant). -/
structure CreateVersionArgs where
  document_count : Nat
  total_size_bytes : Nat
  metadata : List (String × String)
  now : Time
deriving DecidableEq, Repr

/-- N successive `create_version` calls (no intervening rollback). -/
def createVersions (kb : KnowledgeBase) : List CreateVersionArgs → Option KnowledgeBase
  | [] => some kb
  | arg :: rest =>
    match kb.create_version arg.document_count arg.total_size_bytes arg.metadata arg.now with
    | none => none
    | some x => createVersions x.2 rest

/-- The version entry `create_version` appends when the bumped tag is
`v{a}.{b}.{c}`. -/
def mkVersionEntry (a b c : Nat) (arg : CreateVersionArgs) : KnowledgeVersion :=
  { version := renderTag a b c
    created_at := arg.now
    document_count := arg.document_count
    total_size_bytes := arg.total_size_bytes
    metadata := arg.metadata
    checksum := some (sha256_hexdigest
      (versionContentString arg.document_count arg.total_size_bytes arg.now)) }

/-- The entries appended by successive calls starting from patch `c`:
patch components `c+1, c+2, …`. -/
def mkNewVersions (a b : Nat) : Nat → List CreateVersionArgs → List KnowledgeVersion
  | _, [] => []
  | c, arg :: rest => mkVersionEntry a b (c + 1) arg :: mkNewVersions a b (c + 1) rest

theorem mkNewVersions_length (a b : Nat) :
    ∀ c args, (mkNewVersions a b c args).length = args.length := by
  intro c args
  induction args generalizing c with
  | nil => rfl
  | cons arg rest ih => simp [mkNewVersions, ih]

theorem mkNewVersions_checksum (a b : Nat) :
    ∀ c args, ∀ v ∈ mkNewVersions a b c args,
      v.checksum = some (sha256_hexdigest
        (versionContentString v.document_count v.total_size_bytes v.created_at)) := by
  intro c args
  induction args generalizing c with
  | nil => intro v hv; cases hv
  | cons arg rest ih =>
    intro v hv
    cases hv with
    | head => rfl
    | tail _ h => exact ih (c + 1) v h

theorem mkNewVersions_chain (a b : Nat) (v0 : KnowledgeVersion) :
    ∀ c args, parseTag v0.version = some (a, b, c) →
      List.Chain'
        (fun u v => ∃ x y z, parseTag u.version = some (x, y, z) ∧
          parseTag v.version = some (x, y, z + 1))
        (v0 :: mkNewVersions a b c args) := by
  intro c args
  induction args generalizing v0 c with
  | nil => intro hv0; exact List.chain'_singleton v0
  | cons arg rest ih =>
    intro hv0
    rw [show mkNewVersions a b c (arg :: rest) =
      mkVersionEntry a b (c + 1) arg :: mkNewVersions a b (c + 1) rest from rfl]
    rw [List.chain'_cons]
    exact ⟨⟨a, b, c, hv0, parseTag_renderTag a b (c + 1)⟩,
      ih (mkVersionEntry a b (c + 1) arg) (c + 1) (parseTag_renderTag a b (c + 1))⟩

theorem mkNewVersions_getLast_version (a b : Nat) :
    ∀ c args, args ≠ [] →
      ((mkNewVersions a b c args).getLast?).map (fun v => v.version) =
        some (renderTag a b (c + args.length)) := by
  intro c args
  induction args generalizing c with
  | nil => intro h; exact absurd rfl h
  | cons arg rest ih =>
    intro _
    cases hr : rest with
    | nil =>
      subst hr
      rfl
    | cons r2 rest2 =>
      subst hr
      rw [show mkNewVersions a b c (arg :: r2 :: rest2) =
        mkVersionEntry a b (c + 1) arg ::
          (mkVersionEntry a b (c + 2) r2 :: mkNewVersions a b (c + 2) rest2) from rfl]
      rw [List.getLast?_cons_cons]
      have := ih (c + 1) (List.cons_ne_nil r2 rest2)
      rw [show mkNewVersions a b (c + 1) (r2 :: rest2) =
        mkVersionEntry a b (c + 2) r2 :: mkNewVersions a b (c + 2) rest2 from rfl] at this
      rw [this]
      have harith : c + 1 + (r2 :: rest2).length = c + (arg :: r2 :: rest2).length := by
        simp
        omega
      rw [harith]

theorem createVersions_spec (args : List CreateVersionArgs) :
    ∀ (kb : KnowledgeBase) (a b c : Nat),
      parseTag kb.current_version = some (a, b, c) →
      ∃ kb2, createVersions kb args = some kb2 ∧
        kb2.versions = kb.versions ++ mkNewVersions a b c args ∧
        (args = [] → kb2 = kb) ∧
        (args ≠ [] → kb2.current_version = renderTag a b (c + args.length)) := by
  induction args with
  | nil =>
    intro kb a b c hparse
    exact ⟨kb, rfl, by simp [mkNewVersions], fun _ => rfl, fun h => absurd rfl h⟩
  | cons arg rest ih =>
    intro kb a b c hparse
    have hstep : kb.create_version arg.document_count arg.total_size_bytes arg.metadata
        arg.now =
        some (mkVersionEntry a b (c + 1) arg,
          { kb with
              versions := kb.versions ++ [mkVersionEntry a b (c + 1) arg]
              current_version := renderTag a b (c + 1)
              updated_at := arg.now }) := by
      unfold KnowledgeBase.create_version
      rw [hparse]
      rfl
    obtain ⟨kb2, hrec, hvers, hnil, hne⟩ := ih
      { kb with
          versions := kb.versions ++ [mkVersionEntry a b (c + 1) arg]
          current_version := renderTag a b (c + 1)
          updated_at := arg.now }
      a b (c + 1) (parseTag_renderTag a b (c + 1))
    refine ⟨kb2, ?_, ?_, fun h => absurd h (List.cons_ne_nil arg rest), fun _ => ?_⟩
    · show (match kb.create_version arg.document_count arg.total_size_bytes arg.metadata
          arg.now with
        | none => none
        | some x => createVersions x.2 rest) = some kb2
      rw [hstep]
      exact hrec
    · rw [hvers]
      show kb.versions ++ [mkVersionEntry a b (c + 1) arg] ++
          mkNewVersions a b (c + 1) rest =
        kb.versions ++ (mkVersionEntry a b (c + 1) arg :: mkNewVersions a b (c + 1) rest)
      rw [List.append_assoc]
      rfl
    · cases hr : rest with
      | nil =>
        subst hr
        rw [hnil rfl]
        rfl
      | cons r2 rest2 =>
        subst hr
        rw [hne (List.cons_ne_nil r2 rest2)]
        have harith : c + 1 + (r2 :: rest2).length = c + (arg :: r2 :: rest2).length := by
          simp
          omega
        rw [harith]

/-- Claim C4: starting from a knowledge base whose current tag parses as
`v{a}.{b}.{c}` and (when the history is nonempty) equals the last
appended version's tag, N `create_version` calls succeed, append exactly
N entries without touching existing ones, give consecutive entries patch
components that each exceed the previous entry's by exactly one (the
first new entry bumping the current tag), leave `current_version` equal
to the last appended tag, and stamp each created version with a checksum
computed over its `(document_count, total_size_bytes, created_at)`. -/
theorem create_version_monotonicity (kb : KnowledgeBase)
    (args : List CreateVersionArgs) (a b c : Nat)
    (hparse : parseTag kb.current_version = some (a, b, c))
    (hlast : kb.versions = [] ∨
      (kb.versions.getLast?).map (fun v => v.version) = some kb.current_version) :
    ∃ kb2, createVersions kb args = some kb2 ∧
      kb2.versions = kb.versions ++ mkNewVersions a b c args ∧
      kb2.versions.length = kb.versions.length + args.length ∧
      (args ≠ [] → kb2.current_version = renderTag a b (c + args.length) ∧
        (kb2.versions.getLast?).map (fun v => v.version) = some kb2.current_version) ∧
      (∀ v ∈ mkNewVersions a b c args,
        v.checksum = some (sha256_hexdigest
          (versionContentString v.document_count v.total_size_bytes v.created_at))) ∧
      List.Chain'
        (fun u v => ∃ x y z, parseTag u.version = some (x, y, z) ∧
          parseTag v.version = some (x, y, z + 1))
        ((kb.versions.getLast?).toList ++ mkNewVersions a b c args) := by
  obtain ⟨kb2, hrec, hvers, hnil, hne⟩ := createVersions_spec args kb a b c hparse
  refine ⟨kb2, hrec, hvers, ?_, ?_, mkNewVersions_checksum a b c args, ?_⟩
  · rw [hvers, List.length_append, mkNewVersions_length]
  · intro hargs
    refine ⟨hne hargs, ?_⟩
    have hnews_ne : mkNewVersions a b c args ≠ [] := by
      intro hcontra
      have hlen := mkNewVersions_length a b c args
      rw [hcontra] at hlen
      exact hargs (List.eq_nil_of_length_eq_zero hlen.symm)
    rw [hvers, List.getLast?_append_of_ne_nil _ hnews_ne,
      mkNewVersions_getLast_version a b c args hargs, hne hargs]
  · cases hlast with
    | inl hempty =>
      rw [hempty]
      show List.Chain' _ (mkNewVersions a b c args)
      exact (mkNewVersions_chain a b ⟨kb.current_version, 0, 0, 0, [], none⟩ c args
        hparse).tail
    | inr hlast2 =>
      obtain ⟨vl, hvl, hversion⟩ := Option.map_eq_some'.mp hlast2
      rw [hvl]
      show List.Chain' _ (vl :: mkNewVersions a b c args)
      apply mkNewVersions_chain
      rw [hversion]
      exact hparse

def c4kb : KnowledgeBase :=
  match (({} : KnowledgeBaseManager).create_knowledge_base "kb" "" [] none 4 0) with
  | some (kb, _) => kb
  | none => { kb_id := 4, name := "kb", created_at := 0, updated_at := 0 }

def c4args : List CreateVersionArgs :=
  [{ document_count := 5, total_size_bytes := 100, metadata := [], now := 1 },
   { document_count := 6, total_size_bytes := 200, metadata := [], now := 2 }]

/-- Witness for C4: two calls on a freshly created KB (history `[v1.0.1]`)
append two entries and land on `v1.0.3`. -/
theorem create_version_monotonicity_witness :
    ∃ kb2, createVersions c4kb c4args = some kb2 ∧
      kb2.versions.length = c4kb.versions.length + 2 ∧
      kb2.current_version = "v1.0.3" := by
  obtain ⟨kb2, h1, h2, h3, h4, h5, h6⟩ := create_version_monotonicity c4kb c4args 1 0 1
    (by decide) (Or.inr (by decide))
  refine ⟨kb2, h1, h3, ?_⟩
  rw [(h4 (by decide)).1]
  decide
